import Mathlib

/-!
Verification of the RoadForms form-builder backend against its
natural-language specification.  The TypeScript sources are shallowly
embedded: JS numbers appearing in counters and timestamps are modelled as
`Int`/`Nat`, JS fractional arithmetic (rates, averages) as `Rat`, JS objects
as structures or association lists, and the key-value store as an
association list.  Fallible or absent data is `Option`.
-/

/-! ## JavaScript value model

Submission payloads are `Record<string, any>`. The values the routes and
the validator inspect are modelled by `JValue`. Numeric values are
modelled as integers (`Int`); fractional and IEEE-754-specific behaviour
of submitted numbers is outside the scope of the model.
-/

inductive JValue where
  | str (s : String)
  | num (n : Int)
  | bool (b : Bool)
  | null
deriving DecidableEq

/-- Truthiness of a JS value: empty string, 0, false and null are falsy. -/
def JValue.truthy : JValue → Bool
  | .str s => s ≠ ""
  | .num n => n ≠ 0
  | .bool b => b
  | .null => false

/-- Truthiness of `body[field.id]` where an absent property is `undefined` (falsy). -/
def truthyOpt : Option JValue → Bool
  | none => false
  | some v => v.truthy

/-- The JS `String(v)` coercion on the modelled values. -/
def jsString : JValue → String
  | .str s => s
  | .num n => toString n
  | .bool b => if b then "true" else "false"
  | .null => "null"

/-- Association-list lookup modelling `body[key]` on a JS object literal. -/
def jsGet (body : List (String × JValue)) (key : String) : Option JValue :=
  (body.find? (fun p => p.1 = key)).map (·.2)

/-- Characters matched by the JS regex class backslash-s (whitespace).
The model covers the ASCII whitespace characters plus NBSP, LS, PS, BOM. -/
def isJsSpace (c : Char) : Bool :=
  c = ' ' ∨ c = '\t' ∨ c = '\n' ∨ c = '\r' ∨ c = '\x0b' ∨ c = '\x0c' ∨
  c = ' ' ∨ c = ' ' ∨ c = ' ' ∨ c = '﻿'

/-- Numeric value of a digit string (most significant first). -/
def digitsVal (ds : List Char) : Nat :=
  ds.foldl (fun acc c => acc * 10 + (c.toNat - 48)) 0

/-- Model of JS `parseFloat`: skip leading whitespace, optional sign,
digits with an optional fractional part, optional decimal exponent; the
longest valid prefix is parsed and the rest ignored; `none` models `NaN`.
The `Infinity` spellings accepted by `parseFloat` are outside the scope of
the model. -/
def jsParseFloat (s : String) : Option Rat :=
  let cs := s.data.dropWhile isJsSpace
  let (sgn, cs) : Rat × List Char :=
    match cs with
    | '+' :: r => (1, r)
    | '-' :: r => (-1, r)
    | _ => (1, cs)
  let (d1, cs) := (cs.takeWhile Char.isDigit, cs.dropWhile Char.isDigit)
  let (d2, cs) : List Char × List Char :=
    match cs with
    | '.' :: r => (r.takeWhile Char.isDigit, r.dropWhile Char.isDigit)
    | _ => ([], cs)
  if d1 = [] ∧ d2 = [] then none
  else
    let mant : Rat := (digitsVal d1 : Rat) + (digitsVal d2 : Rat) / ((10 : Rat) ^ d2.length)
    let exp : Int :=
      match cs with
      | e :: r =>
        if e = 'e' ∨ e = 'E' then
          match r with
          | '+' :: r2 => if (r2.takeWhile Char.isDigit) = [] then 0 else (digitsVal (r2.takeWhile Char.isDigit) : Int)
          | '-' :: r2 => if (r2.takeWhile Char.isDigit) = [] then 0 else -(digitsVal (r2.takeWhile Char.isDigit) : Int)
          | _ => if (r.takeWhile Char.isDigit) = [] then 0 else (digitsVal (r.takeWhile Char.isDigit) : Int)
        else 0
      | [] => 0
    some (sgn * mant * (10 : Rat) ^ exp)

/-! ## Regex models

The two fixed regexes of the validator are translated to executable
character-list matchers.
-/

/-- A character admitted by the regex class of the email pattern:
anything that is not whitespace and not the at sign. -/
def isEmailChar (c : Char) : Bool := ¬ (c = '@' ∨ isJsSpace c)

/-- Matcher for the anchored email regex of the source
(one or more non-space-non-at, at sign, one or more non-space-non-at,
a dot, one or more non-space-non-at).  The part before the first at sign
must be nonempty without whitespace; the part after must contain no
further at sign or whitespace and must have a dot that is neither its
first nor its last character. -/
def emailTest (s : String) : Bool :=
  let cs := s.data
  let a := cs.takeWhile (fun c => c ≠ '@')
  match cs.dropWhile (fun c => c ≠ '@') with
  | [] => false
  | _ :: x =>
    a ≠ [] ∧ a.all isEmailChar ∧ x.all isEmailChar ∧ ((x.drop 1).dropLast).contains '.'

/-- Matcher for the anchored phone regex of the source: one or more
characters, each a digit, whitespace, or one of plus, minus, parentheses. -/
def phoneTest (s : String) : Bool :=
  s.data ≠ [] ∧ s.data.all (fun c => c.isDigit ∨ isJsSpace c ∨ c = '-' ∨ c = '+' ∨ c = '(' ∨ c = ')')

/-! ## Form data model -/

inductive FieldType where
  | text | email | phone | number | textarea | select | radio | checkbox
  | date | time | file | rating | signature | hidden
deriving DecidableEq

/-- Validation constraints of a field.  The author-supplied regex string
of `pattern` is modelled by its acceptance predicate on the tested string. -/
structure FieldValidation where
  min : Option Int := none
  max : Option Int := none
  minLength : Option Int := none
  maxLength : Option Int := none
  pattern : Option (String → Bool) := none
  customMessage : Option String := none

structure ConditionalRule where
  field : String
  op : String
  value : String
deriving DecidableEq

structure ConditionalLogic where
  action : String
  rules : List ConditionalRule
  logic : String
deriving DecidableEq

structure FormField where
  id : String
  type : FieldType
  label : String
  placeholder : Option String := none
  required : Bool
  validation : Option FieldValidation := none
  options : List String := []
  conditionalLogic : Option ConditionalLogic := none
  order : Int

structure FormSettings where
  submitButton : String := "Submit"
  successMessage : String := "Thank you for your submission!"
  redirectUrl : Option String := none
  notifyEmail : Option String := none
  webhookUrl : Option String := none
  captcha : Bool := false
  onePerUser : Bool := false
  closedMessage : Option String := none
  closeDate : Option Int := none

structure Form where
  id : String
  name : String
  description : Option String := none
  fields : List FormField
  settings : FormSettings
  createdAt : Int
  updatedAt : Int
  published : Bool
  submissions : Nat

structure Submission where
  id : String
  formId : String
  data : List (String × JValue)
  createdAt : Nat

/-! ## Field validator (function `validateField` of the routes file) -/

/-- Truthiness of an optional JS number: present and nonzero. -/
def optNumTruthy : Option Int → Bool
  | some n => n ≠ 0
  | none => false

/-- String-typed constraint checks (length and pattern), the final block of
`validateField`, which runs only for string values.  Note the truthiness
guards: a `minLength`/`maxLength` of 0 disables the check. -/
def stringChecks (validation : FieldValidation) (label : String) (s : String) : Option String :=
  if optNumTruthy validation.minLength ∧
     (s.length : Int) < (validation.minLength.getD 0) then
    some (validation.customMessage.getD
      (label ++ " must be at least " ++ toString (validation.minLength.getD 0) ++ " characters"))
  else if optNumTruthy validation.maxLength ∧
     (validation.maxLength.getD 0) < (s.length : Int) then
    some (validation.customMessage.getD
      (label ++ " must be at most " ++ toString (validation.maxLength.getD 0) ++ " characters"))
  else
    match validation.pattern with
    | some p => if p s then none else some (validation.customMessage.getD (label ++ " format is invalid"))
    | none => none

/-- Per-type checks of `validateField` (email, phone, number blocks).
Each block returns an error on failure and otherwise falls through. -/
def typeChecks (field : FormField) (validation : FieldValidation) (value : JValue) : Option String :=
  match field.type with
  | .email =>
    if emailTest (jsString value) then none
    else some (validation.customMessage.getD (field.label ++ " must be a valid email"))
  | .phone =>
    if phoneTest (jsString value) then none
    else some (validation.customMessage.getD (field.label ++ " must be a valid phone number"))
  | .number =>
    match jsParseFloat (jsString value) with
    | none => some (field.label ++ " must be a number")
    | some num =>
      if validation.min.isSome ∧ num < ((validation.min.getD 0 : Int) : Rat) then
        some (validation.customMessage.getD (field.label ++ " must be at least " ++ toString (validation.min.getD 0)))
      else if validation.max.isSome ∧ ((validation.max.getD 0 : Int) : Rat) < num then
        some (validation.customMessage.getD (field.label ++ " must be at most " ++ toString (validation.max.getD 0)))
      else none
  | _ => none

/-- The validator `validateField(field, value)`.  When the field has no
`validation` object it returns immediately with no error; otherwise the
type-specific block runs first, then the string-length/pattern block. -/
def validateField (field : FormField) (value : JValue) : Option String :=
  match field.validation with
  | none => none
  | some validation =>
    match typeChecks field validation value with
    | some e => some e
    | none =>
      match value with
      | .str s => stringChecks validation field.label s
      | _ => none

/-! ## Submit route (`POST /forms/:id/submit`) -/

/-- Outcome of a submit request: an error response with HTTP status and
message (in which case nothing is written and the form is unchanged), or a
created submission together with the updated form record. -/
inductive SubmitOutcome where
  | err (status : Nat) (msg : String)
  | ok (sub : Submission) (newForm : Form)

/-- One iteration of the validation loop of the submit route: the
required-field check (on a falsy value) precedes and short-circuits the
constraint check, and `validateField` runs only for truthy values. -/
def checkField (field : FormField) (v : Option JValue) : Option String :=
  if field.required = true ∧ truthyOpt v = false then
    some ("Field \"" ++ field.label ++ "\" is required")
  else if truthyOpt v = true then
    match v with
    | some jv => validateField field jv
    | none => none
  else none

/-- The validation loop over all fields of the form; the first error wins. -/
def validateFields (fields : List FormField) (body : List (String × JValue)) : Option String :=
  match fields with
  | [] => none
  | field :: rest =>
    match checkField field (jsGet body field.id) with
    | some e => some e
    | none => validateFields rest body

/-- Truthiness guard on the optional `closeDate` followed by the lateness test. -/
def formClosed (settings : FormSettings) (now : Int) : Bool :=
  optNumTruthy settings.closeDate ∧ (settings.closeDate.getD 0) < now

/-- The submit route, given the stored form, the current time, the parsed
request body and the submission id generated for this request.  Mirrors
the source order: published check, close-date check, per-field validation,
then creation of the submission and increment of the submission counter. -/
def submitForm (form : Form) (now : Int) (body : List (String × JValue)) (newId : String) :
    SubmitOutcome :=
  if form.published = false then
    .err 400 "Form is not accepting submissions"
  else if formClosed form.settings now then
    .err 400 (form.settings.closedMessage.getD "Form is closed")
  else
    match validateFields form.fields body with
    | some e => .err 400 e
    | none =>
      .ok { id := newId, formId := form.id, data := body, createdAt := now.toNat }
        { form with submissions := form.submissions + 1 }

/-- The form record after the submit request: unchanged on an error
response, the stored updated record on success. -/
def formAfterSubmit (form : Form) : SubmitOutcome → Form
  | .err _ _ => form
  | .ok _ f => f

/-! ## ISO-8601 rendering (`Date.prototype.toISOString`)

A civil-calendar conversion of a millisecond timestamp, used by the CSV
export column and by the daily analytics date keys.
-/

/-- Left-pad a numeral with zeroes to the given width. -/
def padNum (width : Nat) (n : Nat) : String :=
  let s := toString n
  if s.length < width then String.mk (List.replicate (width - s.length) '0') ++ s else s

/-- Calendar date (year, month, day) from days since 1970-01-01,
by the standard civil-from-days algorithm. -/
def civilFromDays (days : Nat) : Nat × Nat × Nat :=
  let z := days + 719468
  let era := z / 146097
  let doe := z % 146097
  let yoe := (doe - doe / 1460 + doe / 36524 - doe / 146096) / 365
  let y := yoe + era * 400
  let doy := doe - (365 * yoe + yoe / 4 - yoe / 100)
  let mp := (5 * doy + 2) / 153
  let d := doy - (153 * mp + 2) / 5 + 1
  let m := if mp < 10 then mp + 3 else mp - 9
  (if m ≤ 2 then y + 1 else y, m, d)

/-- The date part (YYYY-MM-DD) of the ISO rendering of a millisecond timestamp. -/
def isoDateOf (ms : Nat) : String :=
  let (y, m, d) := civilFromDays (ms / 86400000)
  padNum 4 y ++ "-" ++ padNum 2 m ++ "-" ++ padNum 2 d

/-- The time part (HH:MM:SS.mmm) of the ISO rendering of a millisecond timestamp. -/
def isoTimeOf (ms : Nat) : String :=
  let r := ms % 86400000
  padNum 2 (r / 3600000) ++ ":" ++ padNum 2 (r % 3600000 / 60000) ++ ":" ++
    padNum 2 (r % 60000 / 1000) ++ "." ++ padNum 3 (r % 1000)

/-- Model of `new Date(ms).toISOString()` for nonnegative timestamps. -/
def isoString (ms : Nat) : String :=
  isoDateOf ms ++ "T" ++ isoTimeOf ms ++ "Z"

/-! ## CSV export (`GET /forms/:id/export`) -/

/-- Quote-doubling on a character list: every double quote becomes two. -/
def escChars : List Char → List Char
  | [] => []
  | c :: r => if c = '"' then '"' :: '"' :: escChars r else c :: escChars r

/-- The JS `String(v).replace` of the export: double every embedded quote. -/
def replaceQuotes (s : String) : String := String.mk (escChars s.data)

/-- A CSV cell of the export: the value with quotes doubled, enclosed in quotes. -/
def csvCell (s : String) : String := "\"" ++ replaceQuotes s ++ "\""

/-- The string rendered into a cell for a stored submission value: the
value coerced by `String(...)` when truthy, the empty string otherwise
(the source reads `sub.data[f.id] || ''`). -/
def exportValue (v : Option JValue) : String :=
  match v with
  | some jv => if jv.truthy then jsString jv else ""
  | none => ""

/-- The `headers` array of the export route: two fixed columns then the
label of each field, in the order of the `fields` array of the form. -/
def exportHeader (form : Form) : List String :=
  "Submission ID" :: "Submitted At" :: form.fields.map (·.label)

/-- One entry of the `rows` array of the export route. -/
def exportRow (form : Form) (sub : Submission) : List String :=
  sub.id :: isoString sub.createdAt :: form.fields.map (fun f => exportValue (jsGet sub.data f.id))

/-- The CSV body: the unquoted header line, then one line per submission
with every cell quoted, joined by newlines. -/
def exportCsv (form : Form) (subs : List Submission) : String :=
  String.intercalate "\n"
    ((String.intercalate "," (exportHeader form)) ::
      subs.map (fun sub => String.intercalate "," ((exportRow form sub).map csvCell)))

/-- Standard CSV unescaping of a quoted cell, modelled from the spec:
strip the outer quotes, then collapse each doubled quote to one. -/
def collapseQuotes : List Char → List Char
  | [] => []
  | [c] => [c]
  | c1 :: c2 :: r =>
    if c1 = '"' ∧ c2 = '"' then '"' :: collapseQuotes r
    else c1 :: collapseQuotes (c2 :: r)

/-- Decoder for one exported cell with a standard CSV parser, modelled
from the spec: drop the enclosing quotes and collapse doubled quotes. -/
def csvUnescape (s : String) : String :=
  String.mk (collapseQuotes ((s.data.drop 1).dropLast))

/-! ## Analytics collector (`FormAnalyticsCollector`)

The KV store of the collector is an association list from full keys to
typed payloads; the payload kinds mirror the serialized shapes the source
writes (counter strings, running-average pairs, error frequency tables,
flushed sessions).  Latest write wins on lookup.
-/

inductive DeviceType where
  | mobile | tablet | desktop
deriving DecidableEq

structure DeviceInfo where
  dtype : DeviceType
  browser : String
  os : String
  screenWidth : Int
  screenHeight : Int
deriving DecidableEq

structure GeoInfo where
  country : Option String := none
  region : Option String := none
  city : Option String := none
deriving DecidableEq

inductive InteractionType where
  | focus | blur | input | change | error
deriving DecidableEq

structure FieldInteraction where
  fieldId : String
  itype : InteractionType
  timestamp : Int
  value : Option String := none
  errorMessage : Option String := none
deriving DecidableEq

structure FormSession where
  sessionId : String
  formId : String
  variant : Option String := none
  started : Int
  completed : Option Int := none
  submitted : Bool
  interactions : List FieldInteraction
  device : DeviceInfo
  geo : GeoInfo
  referrer : Option String := none
  utmParams : List (String × String) := []
deriving DecidableEq

/-- Typed payload stored under one analytics KV key. -/
inductive KVVal where
  | txt (s : String)
  | avgPair (sum : Rat) (count : Nat)
  | errTable (entries : List (String × Nat))
  | sess (s : FormSession)
deriving DecidableEq

/-- The in-memory state of the collector: the live session map and the KV store. -/
structure CollectorState where
  sessions : List (String × FormSession)
  kv : List (String × KVVal)
deriving DecidableEq

/-- Lookup in an association list (the latest write shadows older ones). -/
def alistGet {α : Type} (l : List (String × α)) (k : String) : Option α :=
  (l.find? (fun p => p.1 = k)).map (·.2)

/-- Write to an association list, shadowing any previous value of the key. -/
def alistPut {α : Type} (l : List (String × α)) (k : String) (v : α) : List (String × α) :=
  (k, v) :: l.filter (fun p => p.1 ≠ k)

/-- Remove a key from an association list (`Map.delete`). -/
def alistDel {α : Type} (l : List (String × α)) (k : String) : List (String × α) :=
  l.filter (fun p => p.1 ≠ k)

/-- Model of JS `parseInt` on the canonical decimal strings the counter
writes produce; `none` models `NaN` (never produced by uncorrupted state). -/
def jsParseInt (s : String) : Option Int :=
  let cs := s.data.dropWhile isJsSpace
  let (sgn, cs) : Int × List Char :=
    match cs with
    | '+' :: r => (1, r)
    | '-' :: r => (-1, r)
    | _ => (1, cs)
  let ds := cs.takeWhile Char.isDigit
  if ds = [] then none else some (sgn * digitsVal ds)

/-- The `getCounter` helper: read the text value, `parseInt` it, default 0. -/
def getCounter (kv : List (String × KVVal)) (key : String) : Int :=
  match alistGet kv ("analytics:" ++ key) with
  | some (.txt s) => (jsParseInt s).getD 0
  | _ => 0

/-- The `incrementCounter` helper: read-increment-write of a decimal string. -/
def incrementCounter (kv : List (String × KVVal)) (key : String) : List (String × KVVal) :=
  alistPut kv ("analytics:" ++ key) (.txt (toString (getCounter kv key + 1)))

/-- The `addToAverage` helper: accumulate a `sum`/`count` pair. -/
def addToAverage (kv : List (String × KVVal)) (key : String) (value : Rat) :
    List (String × KVVal) :=
  match alistGet kv ("analytics:" ++ key) with
  | some (.avgPair s c) => alistPut kv ("analytics:" ++ key) (.avgPair (s + value) (c + 1))
  | _ => alistPut kv ("analytics:" ++ key) (.avgPair value 1)

/-- The `getAverage` helper: `sum / count`, 0 when absent or empty. -/
def getAverage (kv : List (String × KVVal)) (key : String) : Rat :=
  match alistGet kv ("analytics:" ++ key) with
  | some (.avgPair s c) => if 0 < c then s / (c : Rat) else 0
  | _ => 0

/-- Bump the per-field error frequency table entry for a message. -/
def bumpError (entries : List (String × Nat)) (msg : String) : List (String × Nat) :=
  if (entries.find? (fun p => p.1 = msg)).isSome then
    entries.map (fun p => if p.1 = msg then (p.1, p.2 + 1) else p)
  else entries ++ [(msg, 1)]

/-- The `trackError` helper. -/
def trackError (kv : List (String × KVVal)) (formId fieldId msg : String) :
    List (String × KVVal) :=
  let key := "analytics:errors:" ++ formId ++ ":" ++ fieldId
  let entries :=
    match alistGet kv key with
    | some (.errTable es) => es
    | _ => []
  alistPut kv key (.errTable (bumpError entries msg))

/-- The date key `YYYY-MM-DD` derived from the current time. -/
def getDateKey (now : Int) : String := isoDateOf now.toNat

namespace FormAnalyticsCollector

/-- The `trackInteraction` operation: returns the state unchanged when the
session is unknown; otherwise appends the interaction to the session log
and updates the per-field counters and averages by interaction type. -/
def trackInteraction (st : CollectorState) (sessionId : String) (i : FieldInteraction) :
    CollectorState :=
  match alistGet st.sessions sessionId with
  | none => st
  | some session =>
    let session2 := { session with interactions := session.interactions ++ [i] }
    let sessions2 := alistPut st.sessions sessionId session2
    let fieldKey := "field:" ++ session.formId ++ ":" ++ i.fieldId
    let kv2 :=
      match i.itype with
      | .focus => incrementCounter st.kv (fieldKey ++ ":focuses")
      | .blur =>
        match session2.interactions.reverse.find?
            (fun x => x.fieldId = i.fieldId ∧ x.itype = .focus) with
        | some focusEvent =>
          addToAverage st.kv (fieldKey ++ ":avgTime") ((i.timestamp - focusEvent.timestamp : Int) : Rat)
        | none => st.kv
      | .error =>
        let kvE := incrementCounter st.kv (fieldKey ++ ":errors")
        match i.errorMessage with
        | some m => trackError kvE session.formId i.fieldId m
        | none => kvE
      | _ => st.kv
    { sessions := sessions2, kv := kv2 }

/-- The `markStarted` operation: no-op on an unknown session, otherwise
increments the daily and total start counters. -/
def markStarted (st : CollectorState) (sessionId : String) (now : Int) : CollectorState :=
  match alistGet st.sessions sessionId with
  | none => st
  | some session =>
    let kv2 := incrementCounter st.kv ("starts:" ++ session.formId ++ ":" ++ getDateKey now)
    { st with kv := incrementCounter kv2 ("starts:" ++ session.formId ++ ":total") }

/-- The `markCompleted` operation: no-op on an unknown session, otherwise
stamps the completion time, increments completion counters, accumulates
the completion-time average and the variant-scoped statistics. -/
def markCompleted (st : CollectorState) (sessionId : String) (now : Int) : CollectorState :=
  match alistGet st.sessions sessionId with
  | none => st
  | some session =>
    let session2 := { session with completed := some now }
    let sessions2 := alistPut st.sessions sessionId session2
    let kv2 := incrementCounter st.kv ("completions:" ++ session.formId ++ ":" ++ getDateKey now)
    let kv3 := incrementCounter kv2 ("completions:" ++ session.formId ++ ":total")
    let completionTime : Rat := ((now - session.started : Int) : Rat) / 1000
    let kv4 := addToAverage kv3 ("avgTime:" ++ session.formId) completionTime
    let kv5 :=
      match session.variant with
      | some v =>
        addToAverage
          (incrementCounter kv4 ("variant:" ++ session.formId ++ ":" ++ v ++ ":completions"))
          ("variant:" ++ session.formId ++ ":" ++ v ++ ":avgTime") completionTime
      | none => kv4
    { sessions := sessions2, kv := kv5 }

/-- The `markSubmitted` operation: no-op on an unknown session, otherwise
sets the submitted flag, increments submission counters (plus the
variant-scoped one), persists the session and evicts it from memory. -/
def markSubmitted (st : CollectorState) (sessionId : String) (now : Int) : CollectorState :=
  match alistGet st.sessions sessionId with
  | none => st
  | some session =>
    let session2 := { session with submitted := true }
    let kv2 := incrementCounter st.kv ("submissions:" ++ session.formId ++ ":" ++ getDateKey now)
    let kv3 := incrementCounter kv2 ("submissions:" ++ session.formId ++ ":total")
    let kv4 :=
      match session.variant with
      | some v => incrementCounter kv3 ("variant:" ++ session.formId ++ ":" ++ v ++ ":submissions")
      | none => kv3
    let kv5 := alistPut kv4
      ("analytics:session:" ++ session.formId ++ ":" ++ session.sessionId) (.sess session2)
    { sessions := alistDel st.sessions sessionId, kv := kv5 }

/-- The `trackDropOff` operation: no-op on an unknown session, otherwise
increments the per-field drop-off and daily abandoned counters and evicts
the session without persisting it. -/
def trackDropOff (st : CollectorState) (sessionId lastFieldId : String) (now : Int) :
    CollectorState :=
  match alistGet st.sessions sessionId with
  | none => st
  | some session =>
    let kv2 := incrementCounter st.kv ("dropoff:" ++ session.formId ++ ":" ++ lastFieldId)
    let kv3 := incrementCounter kv2 ("abandoned:" ++ session.formId ++ ":" ++ getDateKey now)
    { sessions := alistDel st.sessions sessionId, kv := kv3 }

end FormAnalyticsCollector

/-! ## Funnel construction (`getAnalytics` of the collector) -/

structure FunnelStep where
  step : String
  count : Int
  dropOff : Int
  rate : Rat
deriving DecidableEq

/-- The funnel section of `getAnalytics`: four steps built from the total
view/start/completion/submission counters of the form. -/
def getAnalyticsFunnel (kv : List (String × KVVal)) (formId : String) : List FunnelStep :=
  let views := getCounter kv ("views:" ++ formId ++ ":total")
  let starts := getCounter kv ("starts:" ++ formId ++ ":total")
  let completions := getCounter kv ("completions:" ++ formId ++ ":total")
  let submissions := getCounter kv ("submissions:" ++ formId ++ ":total")
  [ { step := "View", count := views, dropOff := views - starts, rate := 1 },
    { step := "Start", count := starts, dropOff := starts - completions,
      rate := if 0 < views then (starts : Rat) / (views : Rat) else 0 },
    { step := "Complete", count := completions, dropOff := completions - submissions,
      rate := if 0 < views then (completions : Rat) / (views : Rat) else 0 },
    { step := "Submit", count := submissions, dropOff := 0,
      rate := if 0 < views then (submissions : Rat) / (views : Rat) else 0 } ]

/-! ## A/B test manager (`ABTestManager` of the analytics module) -/

inductive ABStatus where
  | draft | running | paused | completed
deriving DecidableEq

structure ABVariant where
  id : String
  name : String
  weight : Int
  changes : List (String × JValue) := []
deriving DecidableEq

structure ABTest where
  id : String
  formId : String
  name : String
  variants : List ABVariant
  startDate : Int
  endDate : Option Int := none
  status : ABStatus
  winningVariant : Option String := none
deriving DecidableEq

/-- Wrap an integer to the signed 32-bit range, as the JS bitwise
operators do to their operands and result. -/
def toInt32 (x : Int) : Int := (x + 2147483648) % 4294967296 - 2147483648

namespace ABTestManager

/-- The `simpleHash` helper: the classic shift-and-subtract string hash in
32-bit arithmetic, made nonnegative by `Math.abs`.  Characters are the
code points of the string (identical to the UTF-16 units read by
`charCodeAt` for all characters of the basic multilingual plane). -/
def simpleHash (s : String) : Nat :=
  (s.data.foldl (fun h c => toInt32 (toInt32 (h * 32) - h + (c.toNat : Int))) 0).natAbs

/-- The sum of the variant weights (`reduce` with initial 0). -/
def totalWeight (test : ABTest) : Int :=
  test.variants.foldl (fun sum v => sum + v.weight) 0

/-- The assignment walk: subtract each weight in definition order from the
running threshold and return the first variant that drives it negative. -/
def walkVariants : Int → List ABVariant → Option String
  | _, [] => none
  | threshold, v :: rest =>
    if threshold - v.weight < 0 then some v.id else walkVariants (threshold - v.weight) rest

/-- The variant computation of `getVariant` for a stored test.  When the
total weight is zero the JS threshold is `NaN`, every comparison in the
loop is false, and control falls through to `variants[0].id`; the same
fallthrough happens when the walk exhausts the list.  A test with no
variants makes the source throw on `variants[0].id`; the model returns
`none` there. -/
def assignVariant (test : ABTest) (sessionId : String) : Option String :=
  let tw := totalWeight test
  if tw = 0 then (test.variants.head?).map (·.id)
  else
    match walkVariants ((simpleHash sessionId : Int) % tw) test.variants with
    | some vid => some vid
    | none => (test.variants.head?).map (·.id)

/-- The `getVariant(formId, sessionId)` operation against the KV store:
`null` when no test is stored or the stored test is not running,
otherwise the hash-based assignment. -/
def getVariant (store : List (String × ABTest)) (formId sessionId : String) : Option String :=
  match alistGet store ("abtest:" ++ formId) with
  | none => none
  | some test =>
    if test.status = ABStatus.running then assignVariant test sessionId else none

/-- The assignment rule in the words of the spec, for comparison with the
implementation: hash the session id, reduce it modulo the sum of the
variant weights, and walk the variants in definition order. -/
def getVariantSpec (test : ABTest) (sessionId : String) : Option String :=
  walkVariants ((simpleHash sessionId : Int) % totalWeight test) test.variants

end ABTestManager

/-! ## Second A/B flow (`FormABTestManager` of the conversion module) -/

/-- A stored variant of the second A/B flow, with its accumulated tallies. -/
structure FormABVariantState where
  id : String
  name : String
  traffic : Rat
  views : Nat
  conversions : Nat
  revenue : Int
deriving DecidableEq

/-- One variant entry of an `ABTestResult`. -/
structure FormABResultVariant where
  id : String
  name : String
  views : Nat
  conversions : Nat
  conversionRate : Rat
  revenue : Int
  isWinner : Bool
  confidence : Rat
deriving DecidableEq

namespace FormABTestManager

/-- The per-variant statistics row built by `getResults`, before the
winner marking. -/
def baseResult (v : FormABVariantState) : FormABResultVariant :=
  { id := v.id, name := v.name, views := v.views, conversions := v.conversions,
    conversionRate := if 0 < v.views then ((v.conversions : Rat) / (v.views : Rat)) * 100 else 0,
    revenue := v.revenue, isWinner := false, confidence := 0 }

/-- The copy of the statistics rows sorted by descending conversion rate.
The JS array sort is stable, and a stable sort under a fixed total
preorder has a unique result, here modelled by the stable insertion sort;
rows are tagged with their original index, so `sorted[0]` is the first row
attaining the maximal rate. -/
def sortedResults (vs : List FormABVariantState) : List (Nat × FormABResultVariant) :=
  ((vs.map baseResult).enum).insertionSort (fun a b => b.2.conversionRate ≤ a.2.conversionRate)

/-- The original index of the row the source mutates into the winner:
the head of the sorted copy, provided it passes the minimum-sample floor
of at least 100 views and at least 10 conversions. -/
def winnerIdx (vs : List FormABVariantState) : Option Nat :=
  match sortedResults vs with
  | [] => none
  | (i, v) :: _ => if 100 ≤ v.views ∧ 10 ≤ v.conversions then some i else none

/-- The mutation applied to `sorted[0]` when it passes the floor: the
winner flag and the placeholder confidence `min(95, 50 + views/10)`. -/
def markWinner (v : FormABResultVariant) : FormABResultVariant :=
  { v with isWinner := true, confidence := min 95 (50 + (v.views : Rat) / 10) }

/-- The `variants` array of the `getResults` reply.  The source mutates
`sorted[0]`, an object shared with the unsorted array, so in the returned
array exactly the row at the original index of the sorted head carries
`isWinner` and the placeholder confidence value. -/
def getResultsVariants (vs : List FormABVariantState) : List FormABResultVariant :=
  (vs.map baseResult).enum.map (fun p =>
    if winnerIdx vs = some p.1 then markWinner p.2 else p.2)

end FormABTestManager

/-! ## Customer journey tracker (`CustomerJourneyTracker`) -/

inductive TouchType where
  | form_view | form_submit | email_open | page_view | purchase
deriving DecidableEq

structure Touchpoint where
  ttype : TouchType
  formId : Option String := none
  value : Option Int := none
  metadata : List (String × String) := []
  timestamp : Int
deriving DecidableEq

/-- JS `slice(-n)`: the last `n` elements (all of them when fewer). -/
def jsSliceLast {α : Type} (n : Nat) (l : List α) : List α := l.drop (l.length - n)

namespace CustomerJourneyTracker

/-- The journey value written by one `trackTouchpoint` call, given the
previously stored journey: append the touchpoint (the source spreads the
input and stamps the time, modelled by the `timestamp` field of the
touchpoint), then keep the last 100 entries. -/
def trackTouchpoint (journey : List Touchpoint) (tp : Touchpoint) : List Touchpoint :=
  jsSliceLast 100 (journey ++ [tp])

/-- The `getJourney` read: the stored list, or empty when absent. -/
def getJourney (store : List (String × List Touchpoint)) (customerId : String) :
    List Touchpoint :=
  (alistGet store ("journey:" ++ customerId)).getD []

/-- The store after one `trackTouchpoint(customerId, ...)` call. -/
def trackTouchpointKV (store : List (String × List Touchpoint)) (customerId : String)
    (tp : Touchpoint) : List (String × List Touchpoint) :=
  alistPut store ("journey:" ++ customerId) (trackTouchpoint (getJourney store customerId) tp)

end CustomerJourneyTracker

/-! ## Theorems -/

/-- C2: for every stored form with `published = false` and every request
payload, submit fails with the BusinessRuleViolation response
(HTTP 400, message "Form is not accepting submissions"), no submission is
created and the form record — in particular its submission counter — is
unchanged; validation is never reached since the result holds for every
payload. -/
theorem submit_unpublished_rejected (form : Form) (now : Int)
    (body : List (String × JValue)) (newId : String) (h : form.published = false) :
    submitForm form now body newId = .err 400 "Form is not accepting submissions"
    ∧ formAfterSubmit form (submitForm form now body newId) = form := by
  constructor
  · simp [submitForm, h]
  · simp [submitForm, h, formAfterSubmit]

def formC2 : Form :=
  { id := "f2", name := "F2", fields := [], settings := {}, createdAt := 0,
    updatedAt := 0, published := false, submissions := 7 }

theorem submit_unpublished_rejected_witness :
    formC2.published = false ∧
      (submitForm formC2 5 [("x", JValue.str "y")] "s1" =
          .err 400 "Form is not accepting submissions"
        ∧ formAfterSubmit formC2 (submitForm formC2 5 [("x", JValue.str "y")] "s1") = formC2) :=
  ⟨rfl, submit_unpublished_rejected formC2 5 [("x", JValue.str "y")] "s1" rfl⟩

/-- C3: the claim says every email field rejects a malformed string value,
but `validateField` returns immediately when the field carries no
`validation` object, so the email-shape test is skipped entirely: at the
failing input below (a required email field without a validation object,
submitted value "not-an-email") the validator reports no error and the
submit route accepts the payload, counting the submission. -/
theorem email_shape_check_skipped_without_config :
    emailTest "not-an-email" = false
    ∧ validateField
        { id := "email", type := .email, label := "Email", required := true, order := 0 }
        (.str "not-an-email") = none
    ∧ submitForm
        { id := "f3", name := "Contact",
          fields := [{ id := "email", type := .email, label := "Email", required := true,
                       order := 0 }],
          settings := {}, createdAt := 0, updatedAt := 0, published := true,
          submissions := 0 }
        1 [("email", .str "not-an-email")] "s1" =
      .ok { id := "s1", formId := "f3", data := [("email", JValue.str "not-an-email")],
            createdAt := 1 }
        { id := "f3", name := "Contact",
          fields := [{ id := "email", type := .email, label := "Email", required := true,
                       order := 0 }],
          settings := {}, createdAt := 0, updatedAt := 0, published := true,
          submissions := 1 } := by
  refine ⟨by decide, rfl, ?_⟩
  rfl

/-- C5: in every funnel computed by `getAnalytics` the drop-off of each of
the first three steps equals its count minus the count of the next step,
and the drop-off of the last step is 0. -/
theorem funnel_dropoff_invariant (kv : List (String × KVVal)) (formId : String) :
    ∃ s0 s1 s2 s3, getAnalyticsFunnel kv formId = [s0, s1, s2, s3]
      ∧ s0.count - s1.count = s0.dropOff
      ∧ s1.count - s2.count = s1.dropOff
      ∧ s2.count - s3.count = s2.dropOff
      ∧ s3.dropOff = 0 :=
  ⟨_, _, _, _, rfl, rfl, rfl, rfl, rfl⟩

lemma collapse_escChars (l : List Char) : collapseQuotes (escChars l) = l := by
  induction l with
  | nil => rfl
  | cons c r ih =>
    by_cases hc : c = '"'
    · subst hc
      rw [show escChars ('"' :: r) = '"' :: '"' :: escChars r from by simp [escChars]]
      rw [show collapseQuotes ('"' :: '"' :: escChars r) = '"' :: collapseQuotes (escChars r)
        from by simp [collapseQuotes]]
      rw [ih]
    · cases hr : escChars r with
      | nil =>
        have hr0 : r = [] := by
          cases r with
          | nil => rfl
          | cons d ds =>
            revert hr
            simp only [escChars]
            split <;> simp
        subst hr0
        simp [escChars, hc, collapseQuotes]
      | cons d ds =>
        rw [show escChars (c :: r) = c :: escChars r from by simp [escChars, hc]]
        rw [hr]
        rw [show collapseQuotes (c :: d :: ds) = c :: collapseQuotes (d :: ds)
          from by simp [collapseQuotes, hc]]
        rw [← hr, ih]

/-- C6: CSV cell encoding quotes the value and doubles embedded quotes;
decoding with the standard CSV unescaping recovers every value exactly
(encode-then-decode is the identity), and the concrete value of the spec
exports as the expected cell. -/
theorem csv_roundtrip :
    (∀ s : String, csvUnescape (csvCell s) = s)
    ∧ csvCell "a\"b,c" = "\"a\"\"b,c\"" := by
  constructor
  · intro s
    have h1 : (csvCell s).data = '"' :: (escChars s.data ++ ['"']) := by
      simp [csvCell, replaceQuotes, String.data_append]
    have h2 : csvUnescape (csvCell s) = String.mk (collapseQuotes (escChars s.data)) := by
      rw [csvUnescape, h1]
      simp [List.dropLast_concat]
    rw [h2, collapse_escChars]
  · rfl

/-- C10: a falsy submitted value (empty string, 0, false, null, or an
absent property) is treated by the submit loop exactly like an absent
field: a required field yields the required-field error naming its label,
a non-required field yields no error at all; in both cases the
per-field constraint validation is skipped (no constraint error can be
produced for a falsy value). -/
theorem falsy_required_and_skip (field : FormField) (v : Option JValue)
    (hv : truthyOpt v = false) :
    checkField field v =
      (if field.required then some ("Field \"" ++ field.label ++ "\" is required") else none)
    ∧ checkField field v = checkField field none := by
  have hnone : truthyOpt (none : Option JValue) = false := rfl
  cases hreq : field.required <;> simp [checkField, hv, hreq, hnone]

def fieldC10 : FormField :=
  { id := "age", type := .number, label := "Age", required := true,
    validation := some { min := some 18 }, order := 0 }

theorem falsy_required_and_skip_witness :
    truthyOpt (some (JValue.num 0)) = false ∧
      (checkField fieldC10 (some (JValue.num 0)) =
          (if fieldC10.required then
            some ("Field \"" ++ fieldC10.label ++ "\" is required") else none)
        ∧ checkField fieldC10 (some (JValue.num 0)) = checkField fieldC10 none) :=
  ⟨rfl, falsy_required_and_skip fieldC10 (some (JValue.num 0)) rfl⟩

/-- The field sequence in the words of the claim for the export header:
fields sorted by their `order` property (stable on ties). -/
def fieldsByOrderProp (fields : List FormField) : List FormField :=
  fields.insertionSort (fun a b => a.order ≤ b.order)

def formC4 : Form :=
  { id := "f4", name := "F4",
    fields :=
      [ { id := "b", type := .text, label := "B", required := false, order := 2 },
        { id := "a", type := .text, label := "A", required := false, order := 1 } ],
    settings := {}, createdAt := 0, updatedAt := 0, published := true, submissions := 0 }

/-- C4, counterexample: the export header lists the field labels in the
order of the `fields` array, not in the render sequence defined by the
`order` property — on a form whose array order disagrees with the `order`
values the header differs from the one the claim describes. -/
theorem export_header_not_sorted_by_order :
    exportHeader formC4 ≠
      "Submission ID" :: "Submitted At" :: (fieldsByOrderProp formC4.fields).map (·.label) := by
  decide

/-- C4, amended: the CSV header is `Submission ID`, `Submitted At`,
followed by the field labels in the order of the `fields` array of the
form (the order the submit route validates in, not the `order` property),
and each data row lists the rendered field values in that same array
order, with a value missing from the submission data rendered as the
empty string. -/
lemma exportHeader_getD_label (form : Form) (i : Nat) (h : i < form.fields.length) :
    (exportHeader form).getD (i + 2) "" = (form.fields.get ⟨i, h⟩).label := by
  have hm : i < (form.fields.map (fun f => f.label)).length := by simpa using h
  rw [exportHeader]
  rw [show (i : Nat) + 2 = (i + 1) + 1 from rfl]
  rw [List.getD_cons_succ, List.getD_cons_succ, List.getD_eq_getElem _ _ hm,
    List.getElem_map]
  rfl

lemma exportRow_getD_value (form : Form) (sub : Submission) (i : Nat)
    (h : i < form.fields.length) :
    (exportRow form sub).getD (i + 2) ""
      = exportValue (jsGet sub.data (form.fields.get ⟨i, h⟩).id) := by
  have hv : i < (form.fields.map (fun f => exportValue (jsGet sub.data f.id))).length := by
    simpa using h
  rw [exportRow]
  rw [show (i : Nat) + 2 = (i + 1) + 1 from rfl]
  rw [List.getD_cons_succ, List.getD_cons_succ, List.getD_eq_getElem _ _ hv,
    List.getElem_map]
  rfl

theorem export_columns_follow_array_order (form : Form) (sub : Submission) (i : Nat)
    (h : i < form.fields.length) :
    (exportHeader form).getD 0 "" = "Submission ID"
    ∧ (exportHeader form).getD 1 "" = "Submitted At"
    ∧ (exportHeader form).getD (i + 2) "" = (form.fields.get ⟨i, h⟩).label
    ∧ (exportRow form sub).getD 0 "" = sub.id
    ∧ (exportRow form sub).getD 1 "" = isoString sub.createdAt
    ∧ (exportRow form sub).getD (i + 2) ""
        = exportValue (jsGet sub.data (form.fields.get ⟨i, h⟩).id)
    ∧ (jsGet sub.data (form.fields.get ⟨i, h⟩).id = none →
        (exportRow form sub).getD (i + 2) "" = "") := by
  refine ⟨rfl, rfl, exportHeader_getD_label form i h,
    by rw [exportRow, List.getD_cons_zero],
    by rw [exportRow, List.getD_cons_succ, List.getD_cons_zero],
    exportRow_getD_value form sub i h, ?_⟩
  intro hnone
  rw [exportRow_getD_value form sub i h, hnone]
  rfl

def subC4 : Submission :=
  { id := "s9", formId := "f4", data := [("zzz", JValue.str "v")], createdAt := 0 }

theorem export_columns_follow_array_order_witness :
    (0 : Nat) < formC4.fields.length ∧
      ((exportHeader formC4).getD 0 "" = "Submission ID"
      ∧ (exportHeader formC4).getD 1 "" = "Submitted At"
      ∧ (exportHeader formC4).getD (0 + 2) "" = (formC4.fields.get ⟨0, by decide⟩).label
      ∧ (exportRow formC4 subC4).getD 0 "" = subC4.id
      ∧ (exportRow formC4 subC4).getD 1 "" = isoString subC4.createdAt
      ∧ (exportRow formC4 subC4).getD (0 + 2) ""
          = exportValue (jsGet subC4.data (formC4.fields.get ⟨0, by decide⟩).id)
      ∧ (jsGet subC4.data (formC4.fields.get ⟨0, by decide⟩).id = none →
          (exportRow formC4 subC4).getD (0 + 2) "" = "")) :=
  ⟨by decide, export_columns_follow_array_order formC4 subC4 0 (by decide)⟩

lemma jsSliceLast_length_le {α : Type} (n : Nat) (l : List α) :
    (jsSliceLast n l).length ≤ n := by
  simp [jsSliceLast]
  omega

lemma jsSliceLast_idem_append {α : Type} (n : Nat) (l ys : List α) :
    jsSliceLast n (jsSliceLast n l ++ ys) = jsSliceLast n (l ++ ys) := by
  by_cases h : l.length ≤ n
  · have h0 : l.length - n = 0 := by omega
    simp [jsSliceLast, h0]
  · have hd : l.length - n ≤ l.length := by omega
    have hlen : (jsSliceLast n l).length = n := by
      simp only [jsSliceLast, List.length_drop]
      omega
    calc jsSliceLast n (jsSliceLast n l ++ ys)
        = (jsSliceLast n l ++ ys).drop (n + ys.length - n) := by
          rw [jsSliceLast, List.length_append, hlen]
      _ = (jsSliceLast n l ++ ys).drop ys.length := by
          congr 1
          omega
      _ = ((l ++ ys).drop (l.length - n)).drop ys.length := by
          rw [jsSliceLast, List.drop_append_of_le_length hd]
      _ = (l ++ ys).drop (l.length - n + ys.length) := by
          rw [List.drop_drop]
      _ = jsSliceLast n (l ++ ys) := by
          rw [jsSliceLast, List.length_append]
          congr 1
          omega

lemma foldl_trackTouchpoint (ts : List Touchpoint) (acc : List Touchpoint)
    (h : acc.length ≤ 100) :
    List.foldl CustomerJourneyTracker.trackTouchpoint acc ts = jsSliceLast 100 (acc ++ ts) := by
  induction ts generalizing acc with
  | nil =>
    have : acc.length - 100 = 0 := by omega
    simp [jsSliceLast, this]
  | cons t ts ih =>
    rw [List.foldl_cons]
    rw [ih (CustomerJourneyTracker.trackTouchpoint acc t)
      (jsSliceLast_length_le 100 (acc ++ [t]))]
    rw [CustomerJourneyTracker.trackTouchpoint, jsSliceLast_idem_append]
    congr 1
    simp

lemma getJourney_foldl_trackKV (ts : List Touchpoint) (cid : String)
    (store : List (String × List Touchpoint)) :
    CustomerJourneyTracker.getJourney
        (ts.foldl (fun s tp => CustomerJourneyTracker.trackTouchpointKV s cid tp) store) cid
      = List.foldl CustomerJourneyTracker.trackTouchpoint
          (CustomerJourneyTracker.getJourney store cid) ts := by
  induction ts generalizing store with
  | nil => rfl
  | cons t ts ih =>
    rw [List.foldl_cons, List.foldl_cons, ih]
    congr 1
    simp [CustomerJourneyTracker.trackTouchpointKV, CustomerJourneyTracker.getJourney,
      alistGet, alistPut, List.find?_cons]

/-- C7: a journey written only by `trackTouchpoint` never stores more
than 100 touchpoints, and appending 150 touchpoints for one customer to
an empty store leaves exactly the most recent 100 in oldest-first order
(the 50 oldest are dropped). -/
theorem journey_bounded_history (ts : List Touchpoint) (cid : String)
    (h : ts.length = 150) :
    (∀ ts2 : List Touchpoint,
      (CustomerJourneyTracker.getJourney
        (ts2.foldl (fun s tp => CustomerJourneyTracker.trackTouchpointKV s cid tp) []) cid).length
        ≤ 100)
    ∧ CustomerJourneyTracker.getJourney
        (ts.foldl (fun s tp => CustomerJourneyTracker.trackTouchpointKV s cid tp) []) cid
      = ts.drop 50 := by
  have hempty : CustomerJourneyTracker.getJourney [] cid = [] := rfl
  constructor
  · intro ts2
    rw [getJourney_foldl_trackKV, hempty, foldl_trackTouchpoint ts2 [] (by simp)]
    exact jsSliceLast_length_le 100 _
  · rw [getJourney_foldl_trackKV, hempty, foldl_trackTouchpoint ts [] (by simp)]
    simp [jsSliceLast, h]

def touchC7 : Nat → Touchpoint := fun i => { ttype := .page_view, timestamp := (i : Int) }

theorem journey_bounded_history_witness :
    ((List.range 150).map touchC7).length = 150 ∧
      ((∀ ts2 : List Touchpoint,
        (CustomerJourneyTracker.getJourney
          (ts2.foldl (fun s tp => CustomerJourneyTracker.trackTouchpointKV s "c1" tp) []) "c1").length
          ≤ 100)
      ∧ CustomerJourneyTracker.getJourney
          (((List.range 150).map touchC7).foldl
            (fun s tp => CustomerJourneyTracker.trackTouchpointKV s "c1" tp) []) "c1"
        = ((List.range 150).map touchC7).drop 50) :=
  ⟨by simp, journey_bounded_history ((List.range 150).map touchC7) "c1" (by simp)⟩

/-- C9: for a session id absent from the in-memory session map, each of
`trackInteraction`, `markStarted`, `markCompleted`, `markSubmitted` and
`trackDropOff` returns with the collector state unchanged: no counter or
average is touched and nothing is written to or removed from the session
map or the store. -/
theorem collector_unknown_session_noop (st : CollectorState) (sessionId lastFieldId : String)
    (i : FieldInteraction) (now : Int) (h : alistGet st.sessions sessionId = none) :
    FormAnalyticsCollector.trackInteraction st sessionId i = st
    ∧ FormAnalyticsCollector.markStarted st sessionId now = st
    ∧ FormAnalyticsCollector.markCompleted st sessionId now = st
    ∧ FormAnalyticsCollector.markSubmitted st sessionId now = st
    ∧ FormAnalyticsCollector.trackDropOff st sessionId lastFieldId now = st := by
  refine ⟨?_, ?_, ?_, ?_, ?_⟩ <;>
    simp [FormAnalyticsCollector.trackInteraction, FormAnalyticsCollector.markStarted,
      FormAnalyticsCollector.markCompleted, FormAnalyticsCollector.markSubmitted,
      FormAnalyticsCollector.trackDropOff, h]

def sessC9 : FormSession :=
  { sessionId := "other", formId := "f9", started := 0, submitted := false,
    interactions := [],
    device := { dtype := .desktop, browser := "b", os := "o", screenWidth := 800,
                screenHeight := 600 },
    geo := {} }

def stC9 : CollectorState :=
  { sessions := [("other", sessC9)], kv := [("analytics:views:f9:total", .txt "3")] }

theorem collector_unknown_session_noop_witness :
    alistGet stC9.sessions "ghost" = none ∧
      (FormAnalyticsCollector.trackInteraction stC9 "ghost"
          { fieldId := "a", itype := .focus, timestamp := 1 } = stC9
      ∧ FormAnalyticsCollector.markStarted stC9 "ghost" 2 = stC9
      ∧ FormAnalyticsCollector.markCompleted stC9 "ghost" 2 = stC9
      ∧ FormAnalyticsCollector.markSubmitted stC9 "ghost" 2 = stC9
      ∧ FormAnalyticsCollector.trackDropOff stC9 "ghost" "a" 2 = stC9) :=
  ⟨rfl, collector_unknown_session_noop stC9 "ghost" "a"
    { fieldId := "a", itype := .focus, timestamp := 1 } 2 rfl⟩

namespace ABTestManager

lemma foldl_weight (ws : List ABVariant) (a : Int) :
    ws.foldl (fun sum v => sum + v.weight) a = a + (ws.map (·.weight)).sum := by
  induction ws generalizing a with
  | nil => simp
  | cons w ws ih =>
    rw [List.foldl_cons, ih]
    simp
    ring

lemma walkVariants_isSome (ws : List ABVariant) (th : Int) (h0 : 0 ≤ th)
    (h : th < (ws.map (·.weight)).sum) : (walkVariants th ws).isSome := by
  induction ws generalizing th with
  | nil => simp at h; omega
  | cons w ws ih =>
    rw [walkVariants]
    by_cases hw : th - w.weight < 0
    · simp [hw]
    · simp only [hw, if_false]
      apply ih
      · omega
      · simp [List.sum_cons] at h
        omega

end ABTestManager

/-- C1: against a stored running test, `getVariant` is a pure function of
the session id and the stored test definition: two calls against stores
holding the same (unmodified) test return the same variant, and the
result is exactly the assignment the spec describes — the hash of the
session id reduced modulo the sum of the variant weights, walked against
the variants in definition order. -/
theorem abtest_getVariant_deterministic (st1 st2 : List (String × ABTest))
    (formId sessionId : String) (t : ABTest)
    (h1 : alistGet st1 ("abtest:" ++ formId) = some t)
    (h2 : alistGet st2 ("abtest:" ++ formId) = some t)
    (hrun : t.status = ABStatus.running) (hw : 0 < ABTestManager.totalWeight t) :
    ABTestManager.getVariant st1 formId sessionId = ABTestManager.getVariant st2 formId sessionId
    ∧ ABTestManager.getVariant st1 formId sessionId
        = ABTestManager.getVariantSpec t sessionId := by
  have hbase : ∀ st : List (String × ABTest), alistGet st ("abtest:" ++ formId) = some t →
      ABTestManager.getVariant st formId sessionId
        = ABTestManager.getVariantSpec t sessionId := by
    intro st hst
    rw [ABTestManager.getVariant, hst]
    simp only [hrun, if_pos rfl]
    rw [ABTestManager.assignVariant]
    have htw : ABTestManager.totalWeight t ≠ 0 := by omega
    simp only [htw, if_false]
    have hth0 : 0 ≤ (ABTestManager.simpleHash sessionId : Int) % ABTestManager.totalWeight t :=
      Int.emod_nonneg _ htw
    have hthlt : (ABTestManager.simpleHash sessionId : Int) % ABTestManager.totalWeight t
        < (t.variants.map (·.weight)).sum := by
      have := Int.emod_lt_of_pos (ABTestManager.simpleHash sessionId : Int) hw
      have hsum : ABTestManager.totalWeight t = (t.variants.map (·.weight)).sum := by
        rw [ABTestManager.totalWeight, ABTestManager.foldl_weight]
        simp
      omega
    have hsome := ABTestManager.walkVariants_isSome t.variants _ hth0 hthlt
    rw [ABTestManager.getVariantSpec]
    cases hwalk : ABTestManager.walkVariants
        ((ABTestManager.simpleHash sessionId : Int) % ABTestManager.totalWeight t) t.variants with
    | none => rw [hwalk] at hsome; simp at hsome
    | some vid => rfl
  exact ⟨(hbase st1 h1).trans (hbase st2 h2).symm, hbase st1 h1⟩

def abTestC1 : ABTest :=
  { id := "t1", formId := "form1", name := "T1",
    variants :=
      [ { id := "A", name := "A", weight := 1 },
        { id := "B", name := "B", weight := 3 } ],
    startDate := 0, status := .running }

def abStoreC1 : List (String × ABTest) := [("abtest:form1", abTestC1)]

def abStoreC1b : List (String × ABTest) :=
  [("abtest:other", { abTestC1 with formId := "other", status := .paused }),
   ("abtest:form1", abTestC1)]

theorem abtest_getVariant_deterministic_witness :
    alistGet abStoreC1 ("abtest:" ++ "form1") = some abTestC1 ∧
    alistGet abStoreC1b ("abtest:" ++ "form1") = some abTestC1 ∧
    abTestC1.status = ABStatus.running ∧
    0 < ABTestManager.totalWeight abTestC1 ∧
      (ABTestManager.getVariant abStoreC1 "form1" "alice"
          = ABTestManager.getVariant abStoreC1b "form1" "alice"
      ∧ ABTestManager.getVariant abStoreC1 "form1" "alice"
          = ABTestManager.getVariantSpec abTestC1 "alice") :=
  ⟨by decide, by decide, rfl, by decide,
    abtest_getVariant_deterministic abStoreC1 abStoreC1b "form1" "alice" abTestC1
      (by decide) (by decide) rfl (by decide)⟩


def vsC8 : List FormABVariantState :=
  [ { id := "A", name := "A", traffic := 50, views := 5, conversions := 5, revenue := 0 },
    { id := "B", name := "B", traffic := 50, views := 200, conversions := 50, revenue := 0 } ]

/-- C8, counterexample: with variant A at 5 views / 5 conversions
(rate 100 percent, below the sample floor) and variant B at 200 views /
50 conversions (rate 25 percent, meeting the floor), B is the variant
with the highest conversion rate among the variants meeting the floor,
yet `getResults` marks no winner at all — the source only ever considers
the globally top-rated variant, so the claimed marking rule fails. -/
theorem winner_floor_counterexample :
    ∃ x ∈ FormABTestManager.getResultsVariants vsC8,
      (100 ≤ x.views ∧ 10 ≤ x.conversions)
      ∧ (∀ y ∈ FormABTestManager.getResultsVariants vsC8,
          (100 ≤ y.views ∧ 10 ≤ y.conversions) → y.conversionRate ≤ x.conversionRate)
      ∧ x.isWinner = false := by
  have hres : FormABTestManager.getResultsVariants vsC8
      = [ { id := "A", name := "A", views := 5, conversions := 5, conversionRate := 100,
            revenue := 0, isWinner := false, confidence := 0 },
          { id := "B", name := "B", views := 200, conversions := 50, conversionRate := 25,
            revenue := 0, isWinner := false, confidence := 0 } ] := by
    norm_num [vsC8, FormABTestManager.getResultsVariants, FormABTestManager.winnerIdx,
      FormABTestManager.sortedResults, FormABTestManager.baseResult,
      FormABTestManager.markWinner, List.insertionSort, List.orderedInsert,
      List.enum, List.enumFrom]
    simp
  refine ⟨{ id := "B", name := "B", views := 200, conversions := 50, conversionRate := 25,
            revenue := 0, isWinner := false, confidence := 0 }, ?_, ⟨?_, ?_⟩, ?_, ?_⟩
  · rw [hres]
    simp
  · norm_num
  · norm_num
  · intro y hy
    rw [hres] at hy
    rcases List.mem_cons.mp hy with h | h
    · intro hfl
      rw [h] at hfl
      norm_num at hfl
    · intro _
      rw [List.mem_singleton.mp h]
  · rfl

namespace FormABTestManager

lemma sortedResults_sorted (vs : List FormABVariantState) :
    (sortedResults vs).Sorted
      (fun a b : Nat × FormABResultVariant => b.2.conversionRate ≤ a.2.conversionRate) := by
  haveI : IsTotal (Nat × FormABResultVariant)
      (fun a b => b.2.conversionRate ≤ a.2.conversionRate) :=
    ⟨fun a b => le_total b.2.conversionRate a.2.conversionRate⟩
  haveI : IsTrans (Nat × FormABResultVariant)
      (fun a b => b.2.conversionRate ≤ a.2.conversionRate) :=
    ⟨fun _ _ _ hab hbc => le_trans hbc hab⟩
  exact List.sorted_insertionSort _ _

lemma sortedResults_perm (vs : List FormABVariantState) :
    (sortedResults vs).Perm ((vs.map baseResult).enum) :=
  List.perm_insertionSort _ _

lemma winnerIdx_def (vs : List FormABVariantState) :
    winnerIdx vs = (match sortedResults vs with
      | [] => none
      | (i, v) :: _ => if 100 ≤ v.views ∧ 10 ≤ v.conversions then some i else none) := rfl

lemma winnerIdx_eq_some (vs : List FormABVariantState) (i : Nat)
    (h : winnerIdx vs = some i) :
    ∃ w tl, sortedResults vs = (i, w) :: tl ∧ 100 ≤ w.views ∧ 10 ≤ w.conversions := by
  rw [winnerIdx_def] at h
  cases hs : sortedResults vs with
  | nil =>
    rw [hs] at h
    exact absurd (show (none : Option Nat) = some i from h) (by simp)
  | cons hd tl =>
    obtain ⟨j, w⟩ := hd
    rw [hs] at h
    have h2 : (if 100 ≤ w.views ∧ 10 ≤ w.conversions then some j else none) = some i := h
    by_cases hf : 100 ≤ w.views ∧ 10 ≤ w.conversions
    · rw [if_pos hf] at h2
      refine ⟨w, tl, ?_, hf.1, hf.2⟩
      rw [Option.some.inj h2]
    · rw [if_neg hf] at h2
      exact absurd h2 (by simp)

/-- The conversion rate `getResults` computes for a stored variant,
as a function of the stored tallies. -/
def variantRate (v : FormABVariantState) : Rat :=
  if 0 < v.views then ((v.conversions : Rat) / (v.views : Rat)) * 100 else 0

lemma baseResult_rate (v : FormABVariantState) :
    (baseResult v).conversionRate = variantRate v := rfl

lemma sortedResults_def (vs : List FormABVariantState) :
    sortedResults vs = ((vs.map baseResult).enum).insertionSort
      (fun a b => b.2.conversionRate ≤ a.2.conversionRate) := rfl

end FormABTestManager

lemma pairwise_fst_lt_enumFrom {α : Type} (l : List α) (n : Nat) :
    (List.enumFrom n l).Pairwise (fun a b => a.1 < b.1) := by
  induction l generalizing n with
  | nil => simp
  | cons x l ih =>
    rw [List.enumFrom]
    refine List.pairwise_cons.mpr ⟨?_, ih (n + 1)⟩
    intro p hp
    obtain ⟨q, r⟩ := p
    have h1 : n + 1 ≤ q := (List.mem_enumFrom hp).1
    show n < q
    omega

namespace FormABTestManager

/-- The stable insertion sort puts at the head the earliest-indexed row
among those attaining the maximal conversion rate: on a list of rows with
strictly increasing tags, any row tied with the head of the sorted list
has a tag no smaller than the head tag. -/
lemma head_first_max {l : List (Nat × FormABResultVariant)} :
    ∀ {hd : Nat × FormABResultVariant} {tl : List (Nat × FormABResultVariant)},
    l.Pairwise (fun a b => a.1 < b.1) →
    List.insertionSort (fun a b => b.2.conversionRate ≤ a.2.conversionRate) l = hd :: tl →
    ∀ p ∈ l, p.2.conversionRate = hd.2.conversionRate → hd.1 ≤ p.1 := by
  induction l with
  | nil =>
    intro hd tl _ hsort
    simp [List.insertionSort] at hsort
  | cons a l ih =>
    intro hd tl hinc hsort
    rw [List.insertionSort] at hsort
    cases hs : List.insertionSort (fun a b => b.2.conversionRate ≤ a.2.conversionRate) l with
    | nil =>
      rw [hs] at hsort
      rw [List.orderedInsert] at hsort
      injection hsort with h1 h2
      have hl : l = [] := by
        have hperm := List.perm_insertionSort
          (fun a b => b.2.conversionRate ≤ a.2.conversionRate) l
        rw [hs] at hperm
        exact hperm.symm.eq_nil
      subst hl
      intro p hp hrate
      rcases List.mem_singleton.mp hp with rfl
      subst h1
      exact le_refl _
    | cons b t =>
      rw [hs] at hsort
      simp only [List.orderedInsert] at hsort
      by_cases hr : b.2.conversionRate ≤ a.2.conversionRate
      · rw [if_pos hr] at hsort
        injection hsort with h1 h2
        intro p hp hrate
        rcases List.mem_cons.mp hp with rfl | hp2
        · subst h1
          exact le_refl _
        · have hlt := (List.pairwise_cons.mp hinc).1 p hp2
          subst h1
          omega
      · rw [if_neg hr] at hsort
        injection hsort with h1 h2
        have ihb := ih (List.pairwise_cons.mp hinc).2 hs
        intro p hp hrate
        rcases List.mem_cons.mp hp with rfl | hp2
        · exfalso
          apply hr
          rw [← h1] at hrate
          exact le_of_eq hrate.symm
        · rw [← h1]
          refine ihb p hp2 ?_
          rw [← h1] at hrate
          exact hrate

/-- The head of the sorted copy is a row of the tagged list. -/
lemma head_mem_enum (vs : List FormABVariantState)
    {hd : Nat × FormABResultVariant} {tl : List (Nat × FormABResultVariant)}
    (hsort : sortedResults vs = hd :: tl) :
    hd ∈ (vs.map baseResult).enum :=
  (sortedResults_perm vs).subset (hsort ▸ List.mem_cons_self hd tl)

/-- The head of the sorted copy attains the maximal conversion rate. -/
lemma head_max (vs : List FormABVariantState)
    {hd : Nat × FormABResultVariant} {tl : List (Nat × FormABResultVariant)}
    (hsort : sortedResults vs = hd :: tl) :
    ∀ p ∈ (vs.map baseResult).enum, p.2.conversionRate ≤ hd.2.conversionRate := by
  intro p hp
  have hp_s : p ∈ sortedResults vs := (sortedResults_perm vs).symm.subset hp
  rw [hsort] at hp_s
  rcases List.mem_cons.mp hp_s with rfl | hp_t
  · exact le_refl _
  · have hsorted := sortedResults_sorted vs
    rw [hsort] at hsorted
    exact (List.pairwise_cons.mp hsorted).1 p hp_t

/-- The head of the sorted copy is the earliest-indexed row among those
attaining the maximal conversion rate. -/
lemma head_first (vs : List FormABVariantState)
    {hd : Nat × FormABResultVariant} {tl : List (Nat × FormABResultVariant)}
    (hsort : sortedResults vs = hd :: tl) :
    ∀ p ∈ (vs.map baseResult).enum,
      p.2.conversionRate = hd.2.conversionRate → hd.1 ≤ p.1 := by
  apply head_first_max
  · exact pairwise_fst_lt_enumFrom (vs.map baseResult) 0
  · rw [← sortedResults_def]
    exact hsort

/-- Every index below the length of the variant list tags a row of the
tagged statistics list. -/
lemma enum_mem_of_lt (vs : List FormABVariantState) (k : Nat) (hk : k < vs.length) :
    (k, baseResult (vs.get ⟨k, hk⟩)) ∈ (vs.map baseResult).enum := by
  apply List.mk_mem_enum_iff_getElem?.mpr
  rw [List.getElem?_eq_getElem (by simpa using hk), List.getElem_map, List.get_eq_getElem]

/-- Conversely, every row of the tagged statistics list is the statistics
row of the variant stored at its tag. -/
lemma enum_mem_shape (vs : List FormABVariantState) (p : Nat × FormABResultVariant)
    (hp : p ∈ (vs.map baseResult).enum) :
    ∃ hk : p.1 < vs.length, p.2 = baseResult (vs.get ⟨p.1, hk⟩) := by
  obtain ⟨i, x⟩ := p
  obtain ⟨-, hlt, hx⟩ :=
    List.mem_enumFrom (show (i, x) ∈ List.enumFrom 0 (vs.map baseResult) from hp)
  have hk : i < vs.length := by simpa using hlt
  refine ⟨hk, ?_⟩
  rw [hx]
  simp [List.getElem_map, List.get_eq_getElem]

end FormABTestManager

/-- C8, amended: in the `variants` array returned by `getResults`, the
entry at position i carries `isWinner = true` if and only if i is the
first position (in stored order) attaining the highest conversion rate
among all variants and the variant stored there itself meets the fixed
floor of at least 100 views and at least 10 conversions.  In particular
on rate ties only the first top-rated variant can be marked, and when
that first top-rated variant fails the floor no variant is marked — even
if a tied or lower-rated variant meets the floor, which is where the
original claim fails. -/
theorem winner_iff_first_top_rated_floored (vs : List FormABVariantState) (i : Nat)
    (hi : i < (FormABTestManager.getResultsVariants vs).length) :
    ((FormABTestManager.getResultsVariants vs).get ⟨i, hi⟩).isWinner = true
    ↔ ∃ hv : i < vs.length,
        (100 ≤ (vs.get ⟨i, hv⟩).views ∧ 10 ≤ (vs.get ⟨i, hv⟩).conversions)
        ∧ (∀ j (hj : j < vs.length),
            FormABTestManager.variantRate (vs.get ⟨j, hj⟩)
              ≤ FormABTestManager.variantRate (vs.get ⟨i, hv⟩))
        ∧ (∀ j (hj : j < vs.length), j < i →
            FormABTestManager.variantRate (vs.get ⟨j, hj⟩)
              < FormABTestManager.variantRate (vs.get ⟨i, hv⟩)) := by
  have hlenR : (FormABTestManager.getResultsVariants vs).length = vs.length := by
    simp [FormABTestManager.getResultsVariants, List.enum_length]
  have hv : i < vs.length := by omega
  have hcell : (FormABTestManager.getResultsVariants vs).get ⟨i, hi⟩
      = (if FormABTestManager.winnerIdx vs = some i
          then FormABTestManager.markWinner (FormABTestManager.baseResult (vs.get ⟨i, hv⟩))
          else FormABTestManager.baseResult (vs.get ⟨i, hv⟩)) := by
    rw [List.get_eq_getElem]
    simp only [FormABTestManager.getResultsVariants, List.getElem_map, List.getElem_enum,
      List.get_eq_getElem]
  have hwin_iff : ((FormABTestManager.getResultsVariants vs).get ⟨i, hi⟩).isWinner = true
      ↔ FormABTestManager.winnerIdx vs = some i := by
    rw [hcell]
    by_cases hc : FormABTestManager.winnerIdx vs = some i
    · simp [hc, FormABTestManager.markWinner]
    · rw [if_neg hc]
      simp [FormABTestManager.baseResult, hc]
  rw [hwin_iff]
  constructor
  · intro hw
    obtain ⟨w, tl, hsort, hfv, hfc⟩ := FormABTestManager.winnerIdx_eq_some vs i hw
    obtain ⟨hk, hshape⟩ :=
      FormABTestManager.enum_mem_shape vs (i, w) (FormABTestManager.head_mem_enum vs hsort)
    dsimp only at hk hshape
    rw [hshape] at hfv hfc
    refine ⟨hv, ⟨hfv, hfc⟩, ?_, ?_⟩
    · intro j hj
      have hle := FormABTestManager.head_max vs hsort _
        (FormABTestManager.enum_mem_of_lt vs j hj)
      dsimp only at hle
      rw [hshape, FormABTestManager.baseResult_rate, FormABTestManager.baseResult_rate] at hle
      exact hle
    · intro j hj hji
      have hle := FormABTestManager.head_max vs hsort _
        (FormABTestManager.enum_mem_of_lt vs j hj)
      dsimp only at hle
      rw [FormABTestManager.baseResult_rate] at hle
      rcases lt_or_eq_of_le hle with hlt | heq
      · rw [hshape, FormABTestManager.baseResult_rate] at hlt
        exact hlt
      · exfalso
        have hrates : (FormABTestManager.baseResult (vs.get ⟨j, hj⟩)).conversionRate
            = w.conversionRate := by
          rw [FormABTestManager.baseResult_rate]
          exact heq
        have hfst := FormABTestManager.head_first vs hsort _
          (FormABTestManager.enum_mem_of_lt vs j hj) hrates
        dsimp only at hfst
        omega
  · rintro ⟨hv2, hfloor, hmax, hfirst⟩
    have hslen : (FormABTestManager.sortedResults vs).length = vs.length := by
      rw [(FormABTestManager.sortedResults_perm vs).length_eq]
      simp [List.enum_length]
    cases hsort : FormABTestManager.sortedResults vs with
    | nil =>
      rw [hsort] at hslen
      simp at hslen
      omega
    | cons hd tl =>
      obtain ⟨j, w⟩ := hd
      obtain ⟨hjk, hshape⟩ :=
        FormABTestManager.enum_mem_shape vs (j, w) (FormABTestManager.head_mem_enum vs hsort)
      dsimp only at hjk hshape
      have hle1 : FormABTestManager.variantRate (vs.get ⟨i, hv⟩) ≤ w.conversionRate := by
        have h := FormABTestManager.head_max vs hsort _
          (FormABTestManager.enum_mem_of_lt vs i hv)
        dsimp only at h
        rw [FormABTestManager.baseResult_rate] at h
        exact h
      have hle2 : w.conversionRate ≤ FormABTestManager.variantRate (vs.get ⟨i, hv⟩) := by
        rw [hshape, FormABTestManager.baseResult_rate]
        exact hmax j hjk
      have heq : w.conversionRate = FormABTestManager.variantRate (vs.get ⟨i, hv⟩) :=
        le_antisymm hle2 hle1
      have hji : j ≤ i := by
        have hratei : (FormABTestManager.baseResult (vs.get ⟨i, hv⟩)).conversionRate
            = w.conversionRate := by
          rw [FormABTestManager.baseResult_rate]
          exact heq.symm
        have hfst := FormABTestManager.head_first vs hsort _
          (FormABTestManager.enum_mem_of_lt vs i hv) hratei
        dsimp only at hfst
        exact hfst
      have hij : i ≤ j := by
        by_contra hlt
        push_neg at hlt
        have hstrict := hfirst j hjk hlt
        have hjrate : FormABTestManager.variantRate (vs.get ⟨j, hjk⟩)
            = FormABTestManager.variantRate (vs.get ⟨i, hv2⟩) := by
          rw [show FormABTestManager.variantRate (vs.get ⟨i, hv2⟩)
              = w.conversionRate from heq.symm, hshape, FormABTestManager.baseResult_rate]
        rw [hjrate] at hstrict
        exact lt_irrefl _ hstrict
      have hij_eq : j = i := le_antisymm hji hij
      subst hij_eq
      have hfl_w : 100 ≤ w.views ∧ 10 ≤ w.conversions := by
        rw [hshape]
        exact ⟨hfloor.1, hfloor.2⟩
      rw [FormABTestManager.winnerIdx_def, hsort]
      show (if 100 ≤ w.views ∧ 10 ≤ w.conversions then some j else none) = some j
      rw [if_pos hfl_w]

def vsW8 : List FormABVariantState :=
  [ { id := "A", name := "A", traffic := 50, views := 300, conversions := 60, revenue := 0 },
    { id := "B", name := "B", traffic := 50, views := 400, conversions := 200, revenue := 0 } ]

theorem winner_iff_first_top_rated_floored_witness :
    (1 : Nat) < (FormABTestManager.getResultsVariants vsW8).length ∧
      (((FormABTestManager.getResultsVariants vsW8).get
          ⟨1, by simp [FormABTestManager.getResultsVariants, List.enum_length, vsW8]⟩).isWinner
            = true
      ↔ ∃ hv : (1 : Nat) < vsW8.length,
          (100 ≤ (vsW8.get ⟨1, hv⟩).views ∧ 10 ≤ (vsW8.get ⟨1, hv⟩).conversions)
          ∧ (∀ j (hj : j < vsW8.length),
              FormABTestManager.variantRate (vsW8.get ⟨j, hj⟩)
                ≤ FormABTestManager.variantRate (vsW8.get ⟨1, hv⟩))
          ∧ (∀ j (hj : j < vsW8.length), j < 1 →
              FormABTestManager.variantRate (vsW8.get ⟨j, hj⟩)
                < FormABTestManager.variantRate (vsW8.get ⟨1, hv⟩))) :=
  ⟨by simp [FormABTestManager.getResultsVariants, List.enum_length, vsW8],
    winner_iff_first_top_rated_floored vsW8 1
      (by simp [FormABTestManager.getResultsVariants, List.enum_length, vsW8])⟩
